import Mathlib

/-
  Verification development for the md2pdf-mermaid converter
  (TypeScript sources: mermaid-processor.ts, converter module, config module,
  pdf-generator.ts).  Text is modelled as List Char; each definition is a
  shallow embedding of the corresponding TypeScript function.
-/

namespace MdToPdf

/-- JS regex class \s restricted to ASCII characters (the only characters our
inputs contain).  In JS, \s = [\f\n\r\t\v   ...]; the non-ASCII
members are irrelevant for ASCII documents. -/
def isJsWs (c : Char) : Bool :=
  c = ' ' || c = '\t' || c = '\n' || c = '\r' || c = '\x0b' || c = '\x0c'

/-- Length of the maximal whitespace run at the head of the list (what the
greedy \s* would first consume). -/
def wsRun : List Char → Nat
  | [] => 0
  | c :: cs => if isJsWs c then wsRun cs + 1 else 0

/-- Index of the last occurrence of a character in a list, if any. -/
def lastIdxOf (ch : Char) : List Char → Option Nat
  | [] => none
  | c :: cs =>
    match lastIdxOf ch cs with
    | some j => some (j + 1)
    | none => if c = ch then some 0 else none

/-- Index of the first occurrence of the pattern as a sublist, if any
(the position where the lazy [\s\S]*? stops so that the closing literal
matches). -/
def findSub (pat : List Char) : List Char → Option Nat
  | [] => if pat.isPrefixOf ([] : List Char) then some 0 else none
  | c :: cs =>
    if pat.isPrefixOf (c :: cs) then some 0
    else (findSub pat cs).map (· + 1)

/-- JS String.prototype.trim on the ASCII fragment: strip leading and
trailing whitespace. -/
def trimJs (l : List Char) : List Char :=
  ((l.dropWhile isJsWs).reverse.dropWhile isJsWs).reverse

/-- The slice content[s .. e) of a document. -/
def sliceOf (content : List Char) (s e : Nat) : List Char :=
  (content.drop s).take (e - s)

/-- mermaid-processor.ts, interface MermaidDiagram: a found diagram with its
span in the original text. -/
structure MermaidDiagram where
  fullMatch : List Char
  code : List Char
  startIndex : Nat
  endIndex : Nat
deriving Repr, DecidableEq

/-- One attempt of the JS regex  OPEN \s* \n ([\s\S]*?) CLOSE  anchored at
position s of the content.  The backtracking semantics of the greedy \s*
followed by the literal \n selects the last newline inside the maximal
whitespace run after the opener; the lazy group then stops at the first
occurrence of the closing literal. -/
def matchAt (op cl : List Char) (content : List Char) (s : Nat) :
    Option MermaidDiagram :=
  let rest := content.drop s
  if op.isPrefixOf rest then
    let afterOp := rest.drop op.length
    match lastIdxOf '\n' (afterOp.take (wsRun afterOp)) with
    | none => none
    | some j =>
      let body := afterOp.drop (j + 1)
      match findSub cl body with
      | none => none
      | some e =>
        let endIdx := s + op.length + (j + 1) + e + cl.length
        some { fullMatch := sliceOf content s endIdx
               code := trimJs (body.take e)
               startIndex := s
               endIndex := endIdx }
  else none

/-- The loop  while ((match = regex.exec(content)) !== null)  of
extractDiagrams: leftmost match search from position s, resuming at the end
of each match.  fuel bounds the number of iterations; the scan position
strictly increases at every step, so fuel = content.length + 1 suffices. -/
def scanAux (op cl : List Char) (content : List Char) :
    Nat → Nat → List MermaidDiagram
  | 0, _ => []
  | fuel + 1, s =>
    if s ≥ content.length + 1 then []
    else
      match matchAt op cl content s with
      | some d => d :: scanAux op cl content fuel d.endIndex
      | none => scanAux op cl content fuel (s + 1)

/-- All matches of one delimiter syntax, in positional order (regex exec
with the g flag). -/
def scanPattern (op cl : List Char) (content : List Char) :
    List MermaidDiagram :=
  scanAux op cl content (content.length + 1) 0

/-- Opening literal of the code-fence syntax (MERMAID_PATTERNS.codeFence). -/
def codeFenceOpen : List Char := "```mermaid".data

/-- Closing literal of the code-fence syntax. -/
def codeFenceClose : List Char := "```".data

/-- Opening literal of the triple-colon syntax
(MERMAID_PATTERNS.tripleColon). -/
def tripleColonOpen : List Char := ":::mermaid".data

/-- Closing literal of the triple-colon syntax. -/
def tripleColonClose : List Char := ":::".data

/-- Insert a diagram after all existing entries whose startIndex is not
greater: the stable insertion step of the sort in extractDiagrams. -/
def insertByStart (d : MermaidDiagram) :
    List MermaidDiagram → List MermaidDiagram
  | [] => [d]
  | e :: es =>
    if e.startIndex ≤ d.startIndex then e :: insertByStart d es
    else d :: e :: es

/-- Stable sort by startIndex (diagrams.sort((a, b) => a.startIndex -
b.startIndex)). -/
def sortByStart (l : List MermaidDiagram) : List MermaidDiagram :=
  l.foldl (fun acc d => insertByStart d acc) []

/-- mermaid-processor.ts, MermaidProcessor.extractDiagrams: run both
delimiter patterns over the content (codeFence first, tripleColon second,
the iteration order of MERMAID_PATTERNS), then sort all matches by start
index. -/
def extractDiagrams (content : List Char) : List MermaidDiagram :=
  sortByStart
    (scanPattern codeFenceOpen codeFenceClose content ++
     scanPattern tripleColonOpen tripleColonClose content)

/-! ### Text splicing (MermaidProcessor.processMarkdown) -/

/-- Clamp an integer index into [0, n], as JS String.prototype.substring
does with its arguments. -/
def clampIdx (n : Nat) (a : Int) : Nat :=
  (min (max a 0) (n : Int)).toNat

/-- JS substring(a, b): clamp both indices into [0, length] and swap them
if out of order. -/
def jsSubstring (l : List Char) (a b : Int) : List Char :=
  let a2 := clampIdx l.length a
  let b2 := clampIdx l.length b
  (l.take (max a2 b2)).drop (min a2 b2)

/-- JS substring(a) with one argument: from the clamped index to the end. -/
def jsSubstringFrom (l : List Char) (a : Int) : List Char :=
  l.drop (clampIdx l.length a)

/-- Decimal digits of a natural number (the characters of the JS template
interpolation of a number). -/
def natChars (n : Nat) : List Char :=
  Nat.toDigits 10 n

/-- The generated image file name baseFileName-diagram-(i+1).format of
processMarkdown. -/
def imageName (baseFileName fmt : List Char) (i : Nat) : List Char :=
  baseFileName ++ "-diagram-".data ++ natChars (i + 1) ++ ".".data ++ fmt

/-- The replacement reference text of processMarkdown for diagram i. -/
def imageMarkdown (baseFileName fmt : List Char) (i : Nat) : List Char :=
  "![Diagram ".data ++ natChars (i + 1) ++ "](./".data ++
    imageName baseFileName fmt i ++ ")".data

/-- The failure entry pushed by processMarkdown for diagram i, given the
message of the failed render. -/
def diagramErrLabel (errMsg : Nat → List Char) (i : Nat) : List Char :=
  "Diagram ".data ++ natChars (i + 1) ++ ": ".data ++ errMsg i

/-- Result record of processMarkdown. -/
structure ProcessResult where
  processedContent : List Char
  diagramCount : Nat
  errors : List (List Char)
deriving Repr, DecidableEq

/-- The main loop of processMarkdown: iterate the diagrams in order,
keeping a running offset; on a successful render splice the replacement at
the offset-adjusted span and update the offset, on a failed render push a
labelled failure entry and leave text and offset unchanged.  Render
outcomes are abstracted by the oracle ok (renderDiagram invokes an
external process). -/
def processGo (ok : Nat → Bool) (repl errl : Nat → List Char) :
    List MermaidDiagram → Nat → List Char → Int → List (List Char) →
    List Char × List (List Char)
  | [], _, text, _, errs => (text, errs)
  | d :: ds, i, text, off, errs =>
    if ok i then
      let r := repl i
      let adjStart : Int := (d.startIndex : Int) + off
      let adjEnd : Int := (d.endIndex : Int) + off
      let text2 := jsSubstring text 0 adjStart ++ r ++ jsSubstringFrom text adjEnd
      processGo ok repl errl ds (i + 1) text2
        (off + (r.length : Int) - (d.fullMatch.length : Int)) errs
    else
      processGo ok repl errl ds (i + 1) text off (errs ++ [errl i])

/-- mermaid-processor.ts, MermaidProcessor.processMarkdown: extract the
diagrams, then run the splicing loop from offset 0.  ok i abstracts the
success of renderDiagram for diagram i and errMsg i its error message. -/
def processMarkdown (ok : Nat → Bool) (errMsg : Nat → List Char)
    (baseFileName fmt content : List Char) : ProcessResult :=
  let diagrams := extractDiagrams content
  let p := processGo ok (imageMarkdown baseFileName fmt)
    (diagramErrLabel errMsg) diagrams 0 content 0 []
  ⟨p.1, diagrams.length, p.2⟩

/-! ### Specification-side descriptions of the splice -/

/-- Matches form a sorted non-overlapping chain of spans inside a text of
the given length, starting at or after position c. -/
def chainFrom (len : Nat) : Nat → List MermaidDiagram → Bool
  | _, [] => true
  | c, d :: ds =>
    decide (c ≤ d.startIndex) && decide (d.startIndex ≤ d.endIndex) &&
    decide (d.endIndex ≤ len) && chainFrom len d.endIndex ds

/-- Every match carries as fullMatch exactly the slice of the original
content at its span. -/
def spansMatchText (content : List Char) : List MermaidDiagram → Bool
  | [] => true
  | d :: ds =>
    (d.fullMatch == sliceOf content d.startIndex d.endIndex) &&
    spansMatchText content ds

/-- What one match contributes to the final text: its replacement when its
render succeeded, its original source otherwise. -/
def renderPiece (ok : Nat → Bool) (repl : Nat → List Char) (i : Nat)
    (d : MermaidDiagram) : List Char :=
  if ok i then repl i else d.fullMatch

/-- The offset-free description of the final text from position c on:
original content between spans, and each span replaced by its piece.  Every
replacement lands exactly over its original span. -/
def expectedFrom (ok : Nat → Bool) (repl : Nat → List Char)
    (content : List Char) : Nat → Nat → List MermaidDiagram → List Char
  | c, _, [] => content.drop c
  | c, i, d :: ds =>
    sliceOf content c d.startIndex ++ renderPiece ok repl i d ++
    expectedFrom ok repl content d.endIndex (i + 1) ds

/-- The failure entries produced by the loop, in diagram order. -/
def collectErrs (ok : Nat → Bool) (errl : Nat → List Char) :
    Nat → List MermaidDiagram → List (List Char)
  | _, [] => []
  | i, _ :: ds =>
    (if ok i then [] else [errl i]) ++ collectErrs ok errl (i + 1) ds

/-! ### Splice refinement: the running-offset loop equals the offset-free
description -/

theorem sliceOf_length (content : List Char) (s e : Nat)
    (_hse : s ≤ e) (he : e ≤ content.length) :
    (sliceOf content s e).length = e - s := by
  simp [sliceOf]
  omega

theorem sliceOf_append_drop (content : List Char) (c e : Nat)
    (hce : c ≤ e) :
    sliceOf content c e ++ content.drop e = content.drop c := by
  have h := List.take_append_drop (e - c) (content.drop c)
  rw [List.drop_drop] at h
  rw [show c + (e - c) = e by omega] at h
  exact h

theorem sliceOf_split (content : List Char) (c s e : Nat)
    (h1 : c ≤ s) (h2 : s ≤ e) :
    sliceOf content c s ++ sliceOf content s e = sliceOf content c e := by
  unfold sliceOf
  rw [show e - c = (s - c) + (e - s) by omega, List.take_add, List.drop_drop,
    show c + (s - c) = s by omega]

theorem jsSubstring_zero (l : List Char) (b : Int)
    (_h0 : 0 ≤ b) (h1 : b ≤ (l.length : Int)) :
    jsSubstring l 0 b = l.take b.toNat := by
  have e1 : clampIdx l.length 0 = 0 := by unfold clampIdx; omega
  have e2 : clampIdx l.length b = b.toNat := by unfold clampIdx; omega
  simp [jsSubstring, e1, e2]

theorem jsSubstringFrom_eq (l : List Char) (a : Int)
    (_h0 : 0 ≤ a) (h1 : a ≤ (l.length : Int)) :
    jsSubstringFrom l a = l.drop a.toNat := by
  have e2 : clampIdx l.length a = a.toNat := by unfold clampIdx; omega
  simp [jsSubstringFrom, e2]

/-- Invariant of the splicing loop: as long as the remaining matches form a
sorted non-overlapping chain beyond position c of the original content, and
the text processed so far is A followed by the untouched tail of the
content, the loop produces A followed by the offset-free expected text, and
appends exactly the expected failure entries. -/
theorem processGo_spec (ok : Nat → Bool) (repl errl : Nat → List Char)
    (content : List Char) (ds : List MermaidDiagram) :
    ∀ (i : Nat) (A : List Char) (c : Nat) (off : Int)
      (errs : List (List Char)),
      chainFrom content.length c ds = true →
      spansMatchText content ds = true →
      off = (A.length : Int) - (c : Int) →
      c ≤ content.length →
      processGo ok repl errl ds i (A ++ content.drop c) off errs =
        (A ++ expectedFrom ok repl content c i ds,
         errs ++ collectErrs ok errl i ds) := by
  induction ds with
  | nil =>
    intro i A c off errs _ _ _ _
    simp [processGo, expectedFrom, collectErrs]
  | cons d ds ih =>
    intro i A c off errs hch hsp hoff hc
    simp only [chainFrom, Bool.and_eq_true, decide_eq_true_eq] at hch
    obtain ⟨⟨⟨h1, h2⟩, h3⟩, hch'⟩ := hch
    simp only [spansMatchText, Bool.and_eq_true, beq_iff_eq] at hsp
    obtain ⟨hm, hsp'⟩ := hsp
    have hlen : (A ++ content.drop c).length =
        A.length + (content.length - c) := by simp
    cases hok : ok i with
    | true =>
      have hstart : (d.startIndex : Int) + off =
          ((A.length + (d.startIndex - c) : Nat) : Int) := by
        push_cast; omega
      have hend : (d.endIndex : Int) + off =
          ((A.length + (d.endIndex - c) : Nat) : Int) := by
        push_cast; omega
      have hsub1 : jsSubstring (A ++ content.drop c) 0 ((d.startIndex : Int) + off) =
          A ++ sliceOf content c d.startIndex := by
        rw [hstart, jsSubstring_zero]
        · rw [Int.toNat_ofNat, List.take_append]
          rfl
        · positivity
        · rw [hlen]; push_cast; omega
      have hsub2 : jsSubstringFrom (A ++ content.drop c) ((d.endIndex : Int) + off) =
          content.drop d.endIndex := by
        rw [hend, jsSubstringFrom_eq]
        · rw [Int.toNat_ofNat, List.drop_append, List.drop_drop,
            show c + (d.endIndex - c) = d.endIndex by omega]
        · positivity
        · rw [hlen]; push_cast; omega
      have hslice_len : (sliceOf content c d.startIndex).length =
          d.startIndex - c := sliceOf_length content c d.startIndex h1 (by omega)
      have hfull_len : d.fullMatch.length = d.endIndex - d.startIndex := by
        rw [hm]; exact sliceOf_length content d.startIndex d.endIndex h2 h3
      simp only [processGo, hok, if_true, hsub1, hsub2]
      rw [show (A ++ sliceOf content c d.startIndex) ++ repl i ++ content.drop d.endIndex =
          ((A ++ sliceOf content c d.startIndex ++ repl i)) ++ content.drop d.endIndex by
        simp]
      rw [ih (i + 1) (A ++ sliceOf content c d.startIndex ++ repl i) d.endIndex _ errs
        hch' hsp' (by simp [hslice_len]; omega) h3]
      simp only [expectedFrom, collectErrs, renderPiece, hok, if_true]
      simp
    | false =>
      have hrepr : A ++ content.drop c =
          (A ++ sliceOf content c d.endIndex) ++ content.drop d.endIndex := by
        rw [List.append_assoc, sliceOf_append_drop content c d.endIndex (by omega)]
      have hslice_len : (sliceOf content c d.endIndex).length =
          d.endIndex - c := sliceOf_length content c d.endIndex (by omega) h3
      simp only [processGo, hok, if_false, Bool.false_eq_true]
      rw [hrepr, ih (i + 1) (A ++ sliceOf content c d.endIndex) d.endIndex off
        (errs ++ [errl i]) hch' hsp' (by simp [hslice_len]; omega) h3]
      simp only [expectedFrom, collectErrs, renderPiece, hok, if_false,
        Bool.false_eq_true]
      rw [Prod.mk.injEq]
      refine ⟨?_, by simp⟩
      rw [← sliceOf_split content c d.startIndex d.endIndex h1 h2, hm]
      simp

/-- Shared helper: processMarkdown equals the offset-free description for
any render oracle, on documents whose matches are sorted and
non-overlapping. -/
theorem processMarkdown_eq_expected
    (ok : Nat → Bool) (errMsg : Nat → List Char)
    (baseFileName fmt content : List Char)
    (hch : chainFrom content.length 0 (extractDiagrams content) = true)
    (hsp : spansMatchText content (extractDiagrams content) = true) :
    processMarkdown ok errMsg baseFileName fmt content =
      ⟨expectedFrom ok (imageMarkdown baseFileName fmt) content 0 0
         (extractDiagrams content),
       (extractDiagrams content).length,
       collectErrs ok (diagramErrLabel errMsg) 0 (extractDiagrams content)⟩ := by
  have h := processGo_spec ok (imageMarkdown baseFileName fmt)
    (diagramErrLabel errMsg) content (extractDiagrams content) 0 [] 0 0 []
    hch hsp (by simp) (by omega)
  simp only [List.nil_append, List.drop_zero] at h
  simp [processMarkdown, h]

/-- Claim C1: processMarkdown iterates the matches in ascending startOffset
order with a running offset delta initialised to 0, splicing at
startOffset + offset and endOffset + offset and updating the offset by the
length difference on success, so that every replacement lands exactly over
its original content: the result equals the offset-free description
expectedFrom, in which each match contributes its replacement (or its
untouched source) exactly in place of its original span, for every
document whose matches are sorted and non-overlapping. -/
theorem processMarkdown_offset_splice_correct
    (ok : Nat → Bool) (errMsg : Nat → List Char)
    (baseFileName fmt content : List Char)
    (hch : chainFrom content.length 0 (extractDiagrams content) = true)
    (hsp : spansMatchText content (extractDiagrams content) = true) :
    processMarkdown ok errMsg baseFileName fmt content =
      ⟨expectedFrom ok (imageMarkdown baseFileName fmt) content 0 0
         (extractDiagrams content),
       (extractDiagrams content).length,
       collectErrs ok (diagramErrLabel errMsg) 0 (extractDiagrams content)⟩ :=
  processMarkdown_eq_expected ok errMsg baseFileName fmt content hch hsp

/-- Witness for C1 at a concrete two-diagram document where the first
render succeeds and the second fails. -/
theorem processMarkdown_offset_splice_correct_witness :
    processMarkdown (fun i => i == 0) (fun _ => "err".data) "doc".data
      "png".data "A\n```mermaid\nB\n```\nC\n:::mermaid\nD\n:::\nE".data =
      ⟨expectedFrom (fun i => i == 0) (imageMarkdown "doc".data "png".data)
         "A\n```mermaid\nB\n```\nC\n:::mermaid\nD\n:::\nE".data 0 0
         (extractDiagrams "A\n```mermaid\nB\n```\nC\n:::mermaid\nD\n:::\nE".data),
       (extractDiagrams "A\n```mermaid\nB\n```\nC\n:::mermaid\nD\n:::\nE".data).length,
       collectErrs (fun i => i == 0)
         (diagramErrLabel (fun _ => "err".data)) 0
         (extractDiagrams "A\n```mermaid\nB\n```\nC\n:::mermaid\nD\n:::\nE".data)⟩ :=
  processMarkdown_offset_splice_correct (fun i => i == 0) (fun _ => "err".data)
    "doc".data "png".data _ (by decide) (by decide)

/-! ### Scanner structure: sortedness, union, same-syntax disjointness -/

theorem matchAt_start_le_end (op cl content : List Char) (s : Nat)
    (d : MermaidDiagram) (h : matchAt op cl content s = some d) :
    d.startIndex = s ∧ s ≤ d.endIndex := by
  simp only [matchAt] at h
  split at h
  · split at h
    · exact absurd h (by simp)
    · split at h
      · exact absurd h (by simp)
      · rw [Option.some.injEq] at h
        subst h
        refine ⟨rfl, ?_⟩
        show s ≤ s + op.length + _ + _ + cl.length
        omega
  · exact absurd h (by simp)

theorem scanAux_mem_bounds (op cl content : List Char) :
    ∀ (fuel s : Nat) (d : MermaidDiagram),
      d ∈ scanAux op cl content fuel s →
      s ≤ d.startIndex ∧ d.startIndex ≤ d.endIndex := by
  intro fuel
  induction fuel with
  | zero => intro s d h; simp [scanAux] at h
  | succ fuel ih =>
    intro s d h
    simp only [scanAux] at h
    split at h
    · simp at h
    · split at h
      case _ d' heq =>
        rcases List.mem_cons.mp h with rfl | hmem
        · have h1 := matchAt_start_le_end op cl content s d heq
          omega
        · have h2 := ih d'.endIndex d hmem
          have h3 := matchAt_start_le_end op cl content s d' heq
          omega
      case _ heq =>
        have := ih (s + 1) d h
        omega

theorem scanAux_chain (op cl content : List Char) :
    ∀ (fuel s : Nat),
      List.Chain' (fun a b => a.endIndex ≤ b.startIndex)
        (scanAux op cl content fuel s) := by
  intro fuel
  induction fuel with
  | zero => intro s; simp [scanAux]
  | succ fuel ih =>
    intro s
    simp only [scanAux]
    split
    · simp
    · split
      case _ d heq =>
        apply List.chain'_cons'.mpr
        refine ⟨?_, ih d.endIndex⟩
        intro b hb
        have hbmem : b ∈ scanAux op cl content fuel d.endIndex :=
          List.mem_of_mem_head? hb
        exact (scanAux_mem_bounds op cl content fuel d.endIndex b hbmem).1
      case _ => exact ih (s + 1)

theorem mem_insertByStart (d x : MermaidDiagram) (l : List MermaidDiagram) :
    x ∈ insertByStart d l ↔ x = d ∨ x ∈ l := by
  induction l with
  | nil => simp [insertByStart]
  | cons e es ih =>
    by_cases h : e.startIndex ≤ d.startIndex
    · simp only [insertByStart, if_pos h, List.mem_cons, ih]
      tauto
    · simp only [insertByStart, if_neg h, List.mem_cons]

theorem insertByStart_sorted (d : MermaidDiagram) (l : List MermaidDiagram)
    (h : l.Pairwise (fun a b => a.startIndex ≤ b.startIndex)) :
    (insertByStart d l).Pairwise (fun a b => a.startIndex ≤ b.startIndex) := by
  induction l with
  | nil => simp [insertByStart]
  | cons e es ih =>
    rcases List.pairwise_cons.mp h with ⟨he, hes⟩
    by_cases hle : e.startIndex ≤ d.startIndex
    · rw [insertByStart, if_pos hle]
      apply List.pairwise_cons.mpr
      refine ⟨?_, ih hes⟩
      intro x hx
      rcases (mem_insertByStart d x es).mp hx with rfl | hxm
      · exact hle
      · exact he x hxm
    · rw [insertByStart, if_neg hle]
      apply List.pairwise_cons.mpr
      refine ⟨?_, h⟩
      intro x hx
      rcases List.mem_cons.mp hx with rfl | hxm
      · omega
      · have := he x hxm; omega

theorem sortByStart_sorted_aux :
    ∀ (l acc : List MermaidDiagram),
      acc.Pairwise (fun a b => a.startIndex ≤ b.startIndex) →
      (l.foldl (fun acc d => insertByStart d acc) acc).Pairwise
        (fun a b => a.startIndex ≤ b.startIndex) := by
  intro l
  induction l with
  | nil => intro acc h; simpa using h
  | cons d ds ih =>
    intro acc h
    simp only [List.foldl_cons]
    exact ih _ (insertByStart_sorted d acc h)

theorem sortByStart_sorted (l : List MermaidDiagram) :
    (sortByStart l).Pairwise (fun a b => a.startIndex ≤ b.startIndex) :=
  sortByStart_sorted_aux l [] (by simp)

theorem insertByStart_perm (d : MermaidDiagram) (l : List MermaidDiagram) :
    List.Perm (insertByStart d l) (d :: l) := by
  induction l with
  | nil => simp [insertByStart]
  | cons e es ih =>
    by_cases h : e.startIndex ≤ d.startIndex
    · rw [insertByStart, if_pos h]
      exact (ih.cons e).trans (List.Perm.swap d e es)
    · rw [insertByStart, if_neg h]

theorem sortByStart_perm_aux :
    ∀ (l acc : List MermaidDiagram),
      List.Perm (l.foldl (fun acc d => insertByStart d acc) acc) (l ++ acc) := by
  intro l
  induction l with
  | nil => intro acc; simp
  | cons d ds ih =>
    intro acc
    simp only [List.foldl_cons]
    refine ((ih _).trans ?_)
    refine (List.Perm.append_left ds (insertByStart_perm d acc)).trans ?_
    exact List.perm_middle

theorem sortByStart_perm (l : List MermaidDiagram) :
    List.Perm (sortByStart l) l := by
  have h := sortByStart_perm_aux l []
  simpa [sortByStart] using h

/-- Two spans overlap when neither ends at or before the start of the
other. -/
def overlapping (a b : MermaidDiagram) : Bool :=
  !(decide (a.endIndex ≤ b.startIndex) || decide (b.endIndex ≤ a.startIndex))

/-- Every pair of matches in the list has disjoint spans (each character of
the input belongs to at most one match). -/
def spansPairwiseDisjoint : List MermaidDiagram → Bool
  | [] => true
  | d :: ds => ds.all (fun e => !(overlapping d e)) && spansPairwiseDisjoint ds

/-- Counterexample to C5: when the triple-colon syntax is nested inside a
code fence, the two syntaxes produce overlapping matches, so the spans of
extractDiagrams are not pairwise non-overlapping. -/
theorem extractDiagrams_overlap_counterexample :
    spansPairwiseDisjoint
      (extractDiagrams "```mermaid\n:::mermaid\nA\n:::\n```".data) = false := by
  decide

/-- Claim C5 amended: extractDiagrams returns the union of the matches of
both delimiter syntaxes (a permutation of the concatenation of the two
scans) sorted by start offset ascending, and the matches of each single
syntax are pairwise non-overlapping; matches of the two different syntaxes
can overlap when one syntax is nested inside the body of the other. -/
theorem extractDiagrams_sorted_union_same_syntax_disjoint
    (content : List Char) :
    (extractDiagrams content).Pairwise
        (fun a b => a.startIndex ≤ b.startIndex) ∧
    List.Perm (extractDiagrams content)
      (scanPattern codeFenceOpen codeFenceClose content ++
        scanPattern tripleColonOpen tripleColonClose content) ∧
    List.Chain' (fun a b => a.endIndex ≤ b.startIndex)
      (scanPattern codeFenceOpen codeFenceClose content) ∧
    List.Chain' (fun a b => a.endIndex ≤ b.startIndex)
      (scanPattern tripleColonOpen tripleColonClose content) :=
  ⟨sortByStart_sorted _, sortByStart_perm _,
   scanAux_chain _ _ _ _ _, scanAux_chain _ _ _ _ _⟩

/-- Claim C8: a document with zero diagram blocks is returned unchanged,
with diagramCount 0 and no failure entries. -/
theorem processMarkdown_no_diagrams
    (ok : Nat → Bool) (errMsg : Nat → List Char)
    (baseFileName fmt content : List Char)
    (h : extractDiagrams content = []) :
    processMarkdown ok errMsg baseFileName fmt content =
      ⟨content, 0, []⟩ := by
  simp [processMarkdown, h, processGo]

/-- Witness for C8 at a concrete diagram-free document. -/
theorem processMarkdown_no_diagrams_witness :
    processMarkdown (fun _ => true) (fun _ => []) "doc".data "png".data
      "hello world\nno diagrams here`".data = ⟨"hello world\nno diagrams here`".data, 0, []⟩ :=
  processMarkdown_no_diagrams _ _ _ _ _ (by decide)

/-! ### Failure isolation (claim C4) -/

theorem collectErrs_all_ok (ok : Nat → Bool) (errl : Nat → List Char) :
    ∀ (ds : List MermaidDiagram) (i : Nat),
      (∀ j, i ≤ j → j < i + ds.length → ok j = true) →
      collectErrs ok errl i ds = [] := by
  intro ds
  induction ds with
  | nil => intro i _; rfl
  | cons d ds ih =>
    intro i hall
    have h0 : ok i = true := hall i (le_refl i) (by simp)
    simp only [collectErrs, h0, if_true, List.nil_append]
    exact ih (i + 1) (fun j h1 h2 => hall j (by omega) (by simp at h2 ⊢; omega))

theorem collectErrs_single_failure (errl : Nat → List Char) (k : Nat) :
    ∀ (ds : List MermaidDiagram) (i : Nat),
      i ≤ k → k < i + ds.length →
      collectErrs (fun j => j != k) errl i ds = [errl k] := by
  intro ds
  induction ds with
  | nil => intro i h1 h2; simp at h2; omega
  | cons d ds ih =>
    intro i h1 h2
    by_cases hik : i = k
    · subst hik
      have hfalse : (i != i) = false := by simp
      simp only [collectErrs, hfalse, if_false, Bool.false_eq_true]
      rw [collectErrs_all_ok _ errl ds (i + 1) (fun j hj _ => by
        simp; omega)]
      simp
    · have htrue : (i != k) = true := by simp; omega
      simp only [collectErrs, htrue, if_true, List.nil_append]
      exact ih (i + 1) (by omega) (by simp at h2 ⊢; omega)

theorem expectedFrom_split (ok : Nat → Bool) (repl : Nat → List Char)
    (content : List Char) :
    ∀ (ds : List MermaidDiagram) (c i k : Nat) (hk : k < ds.length),
      ∃ pre post,
        expectedFrom ok repl content c i ds =
          pre ++ renderPiece ok repl (i + k) (ds.get ⟨k, hk⟩) ++ post := by
  intro ds
  induction ds with
  | nil => intro c i k hk; simp at hk
  | cons d ds ih =>
    intro c i k hk
    cases k with
    | zero =>
      refine ⟨sliceOf content c d.startIndex,
        expectedFrom ok repl content d.endIndex (i + 1) ds, ?_⟩
      simp [expectedFrom]
    | succ k =>
      obtain ⟨pre, post, hsplit⟩ :=
        ih d.endIndex (i + 1) k (by simpa using Nat.lt_of_succ_lt_succ hk)
      refine ⟨sliceOf content c d.startIndex ++ renderPiece ok repl i d ++ pre,
        post, ?_⟩
      simp only [expectedFrom, hsplit, List.get_cons_succ]
      rw [show i + (k + 1) = i + 1 + k by omega]
      simp

/-- Claim C4: when diagram k fails to render while every other diagram
succeeds, the final text is the offset-free description in which diagram k
contributes its original delimiter-enclosed source verbatim (at its
shifted position, between the earlier and later replacements) and every
other diagram contributes its image reference; exactly one labelled
failure entry naming diagram k is produced; and a failure step leaves both
the text and the running offset unchanged. -/
theorem processMarkdown_failure_isolation
    (errMsg : Nat → List Char) (baseFileName fmt content : List Char)
    (k : Nat)
    (hch : chainFrom content.length 0 (extractDiagrams content) = true)
    (hsp : spansMatchText content (extractDiagrams content) = true)
    (hk : k < (extractDiagrams content).length) :
    (processMarkdown (fun j => j != k) errMsg baseFileName fmt
        content).processedContent =
      expectedFrom (fun j => j != k) (imageMarkdown baseFileName fmt)
        content 0 0 (extractDiagrams content) ∧
    (∃ pre post,
      (processMarkdown (fun j => j != k) errMsg baseFileName fmt
          content).processedContent =
        pre ++ ((extractDiagrams content).get ⟨k, hk⟩).fullMatch ++ post) ∧
    (∀ j d, j ≠ k →
      renderPiece (fun t => t != k) (imageMarkdown baseFileName fmt) j d =
        imageMarkdown baseFileName fmt j) ∧
    (processMarkdown (fun j => j != k) errMsg baseFileName fmt
        content).errors = [diagramErrLabel errMsg k] ∧
    (∀ (rest : List MermaidDiagram) (d : MermaidDiagram) (text : List Char)
        (off : Int) (acc : List (List Char)),
      processGo (fun j => j != k) (imageMarkdown baseFileName fmt)
          (diagramErrLabel errMsg) (d :: rest) k text off acc =
        processGo (fun j => j != k) (imageMarkdown baseFileName fmt)
          (diagramErrLabel errMsg) rest (k + 1) text off
          (acc ++ [diagramErrLabel errMsg k])) := by
  have hmain := processMarkdown_eq_expected (fun j => j != k) errMsg
    baseFileName fmt content hch hsp
  refine ⟨by rw [hmain], ?_, ?_, ?_, ?_⟩
  · obtain ⟨pre, post, hsplit⟩ := expectedFrom_split (fun j => j != k)
      (imageMarkdown baseFileName fmt) content (extractDiagrams content)
      0 0 k hk
    refine ⟨pre, post, ?_⟩
    rw [hmain]
    simp only [hsplit]
    have : renderPiece (fun j => j != k) (imageMarkdown baseFileName fmt)
        (0 + k) ((extractDiagrams content).get ⟨k, hk⟩) =
        ((extractDiagrams content).get ⟨k, hk⟩).fullMatch := by
      simp [renderPiece]
    rw [this]
  · intro j d hj
    simp [renderPiece, hj]
  · rw [hmain]
    exact collectErrs_single_failure (diagramErrLabel errMsg) k
      (extractDiagrams content) 0 (by omega) (by omega)
  · intro rest d text off acc
    simp [processGo]

/-- Witness for C4 at a concrete three-diagram document whose middle
diagram (k = 1) fails. -/
theorem processMarkdown_failure_isolation_witness :
    (processMarkdown (fun j => j != 1) (fun _ => "boom".data) "doc".data
        "png".data
        "A\n```mermaid\nB\n```\nC\n:::mermaid\nD\n:::\nE\n```mermaid\nF\n```\nG".data).processedContent =
      expectedFrom (fun j => j != 1) (imageMarkdown "doc".data "png".data)
        "A\n```mermaid\nB\n```\nC\n:::mermaid\nD\n:::\nE\n```mermaid\nF\n```\nG".data
        0 0
        (extractDiagrams
          "A\n```mermaid\nB\n```\nC\n:::mermaid\nD\n:::\nE\n```mermaid\nF\n```\nG".data) ∧
    (processMarkdown (fun j => j != 1) (fun _ => "boom".data) "doc".data
        "png".data
        "A\n```mermaid\nB\n```\nC\n:::mermaid\nD\n:::\nE\n```mermaid\nF\n```\nG".data).errors =
      [diagramErrLabel (fun _ => "boom".data) 1] := by
  have h := processMarkdown_failure_isolation (fun _ => "boom".data)
    "doc".data "png".data
    "A\n```mermaid\nB\n```\nC\n:::mermaid\nD\n:::\nE\n```mermaid\nF\n```\nG".data
    1 (by decide) (by decide) (by decide)
  exact ⟨h.1, h.2.2.2.1⟩

/-! ### renderDiagram outcome mapping (claim C6)

mermaid-processor.ts lines 122-183: the whole body of renderDiagram is a
try block whose catch converts any thrown error (subprocess timeout,
non-zero exit, filesystem failure) into a returned value.  The external
effects are abstracted by a RenderEnv: execError is the error message of
the awaited subprocess when it threw (timeout or non-zero exit), none when
it completed normally; outputExists is the result of the
fs.pathExists(outputPath) check made after the subprocess step. -/

/-- Abstraction of the external effects seen by renderDiagram. -/
structure RenderEnv where
  execError : Option (List Char)
  outputExists : Bool
deriving Repr, DecidableEq

/-- The value renderDiagram returns ({ success: boolean; error?: string }). -/
structure RenderOutcome where
  success : Bool
  error : Option (List Char)
deriving Repr, DecidableEq

/-- mermaid-processor.ts, MermaidProcessor.renderDiagram: catch any
subprocess error, otherwise verify that the output file was created. -/
def renderDiagram (env : RenderEnv) : RenderOutcome :=
  match env.execError with
  | some msg => ⟨false, some msg⟩
  | none =>
    if env.outputExists then ⟨true, none⟩
    else ⟨false, some "Output file was not created".data⟩

/-- Claim C6: renderDiagram never throws: a subprocess timeout or non-zero
exit (execError = some msg) yields { success := false, error := msg }; a
zero-exit run with no output file yields { success := false, error :=
"Output file was not created" }; when the subprocess completes normally,
success is returned exactly when the declared output file exists; and
every failure carries an error message. -/
theorem renderDiagram_outcomes (env : RenderEnv) :
    (∀ msg, env.execError = some msg →
      renderDiagram env = ⟨false, some msg⟩) ∧
    (env.execError = none → env.outputExists = false →
      renderDiagram env = ⟨false, some "Output file was not created".data⟩) ∧
    (env.execError = none →
      ((renderDiagram env).success = true ↔ env.outputExists = true)) ∧
    ((renderDiagram env).success = false →
      (renderDiagram env).error.isSome = true) := by
  rcases env with ⟨e, o⟩
  rcases e with _ | msg <;> cases o <;> simp [renderDiagram]

/-- Witness for C6 at concrete environments: a thrown subprocess error, a
clean run with a missing output file, and a clean run with the output
present. -/
theorem renderDiagram_outcomes_witness :
    renderDiagram ⟨some "timeout".data, true⟩ =
      ⟨false, some "timeout".data⟩ ∧
    renderDiagram ⟨none, false⟩ =
      ⟨false, some "Output file was not created".data⟩ ∧
    ((renderDiagram ⟨none, true⟩).success = true ↔ true = true) :=
  ⟨(renderDiagram_outcomes ⟨some "timeout".data, true⟩).1 "timeout".data rfl,
   (renderDiagram_outcomes ⟨none, false⟩).2.1 rfl rfl,
   (renderDiagram_outcomes ⟨none, true⟩).2.2.1 rfl⟩

/-! ### Default output path (claim C10) -/

/-- Whether the resolved input path matches /\.md$/i: a trailing ".md"
with the letters in either case. -/
def endsWithMdCI (l : List Char) : Bool :=
  match l.reverse with
  | d :: m :: dot :: _ =>
    (d = 'd' || d = 'D') && (m = 'm' || m = 'M') && dot = '.'
  | _ => false

/-- converter module, Converter.convert lines 95-97: the output path is
the given one when present, otherwise resolvedInput.replace(/\.md$/i,
".pdf").  Since the pattern is anchored at the end, replace either
rewrites the trailing ".md" or, when the input does not end in ".md",
returns the input unchanged. -/
def resolveOutputPath (resolvedInput : List Char)
    (outputPath : Option (List Char)) : List Char :=
  match outputPath with
  | some o => o
  | none =>
    if endsWithMdCI resolvedInput then
      resolvedInput.take (resolvedInput.length - 3) ++ ".pdf".data
    else resolvedInput

/-- Claim C10: with no explicit output path, the default output path is
the resolved input path with a trailing ".md" (matched case-insensitively)
replaced by ".pdf"; for any input path not ending in ".md" the default
output path equals the input path itself, so the generated PDF would be
written over the source file. -/
theorem resolveOutputPath_default (input : List Char) :
    (endsWithMdCI input = true →
      resolveOutputPath input none =
        input.take (input.length - 3) ++ ".pdf".data) ∧
    (endsWithMdCI input = false →
      resolveOutputPath input none = input) := by
  constructor <;> intro h <;> simp [resolveOutputPath, h]

/-- Witness for C10: a ".MD" input is rewritten to ".pdf"; a ".txt" input
is returned unchanged, naming the input file itself as the output. -/
theorem resolveOutputPath_default_witness :
    resolveOutputPath "/docs/readme.MD".data none =
      "/docs/readme.MD".data.take ("/docs/readme.MD".data.length - 3) ++
        ".pdf".data ∧
    resolveOutputPath "/docs/readme.txt".data none = "/docs/readme.txt".data :=
  ⟨(resolveOutputPath_default "/docs/readme.MD".data).1 (by decide),
   (resolveOutputPath_default "/docs/readme.txt".data).2 (by decide)⟩

/-! ### Working-directory lifecycle of Converter.convert (claim C2)

converter module lines 90-174.  The abstraction: inputExists is the
fs.pathExists check on the resolved input; pdfSuccess the success flag of
pdfGenerator.generate; keepIntermediate the caller option; renderFailures
the (non-fatal) diagram errors of processMarkdown.  The tmp.dir scoped
working directory is created after the input check; tmpDir.cleanup() is
invoked only on the success path when keepIntermediate is false.  The
finally block cleans only the mermaid processor's own temp directory, a
different directory from the per-document working directory. -/

/-- Abstraction of the external effects seen by one run of convert. -/
structure ConvertEnv where
  inputExists : Bool
  renderFailures : Bool
  pdfSuccess : Bool
  keepIntermediate : Bool
deriving Repr, DecidableEq

/-- Observable outcome of one run of convert, tracking the per-document
working directory state. -/
structure ConvertOutcome where
  success : Bool
  workDirCreated : Bool
  workDirExists : Bool
  mermaidTempCleaned : Bool
deriving Repr, DecidableEq

/-- converter module, Converter.convert: the try block throws before
creating the working directory when the input file is missing; diagram
render failures are only logged and do not change control flow; a PDF
generation failure throws after the working directory was created, and the
catch path returns success := false without invoking tmpDir.cleanup();
the success path cleans the working directory unless keepIntermediate.
The finally block always runs mermaidProcessor.cleanup(). -/
def convert (env : ConvertEnv) : ConvertOutcome :=
  if !env.inputExists then
    ⟨false, false, false, true⟩
  else if !env.pdfSuccess then
    ⟨false, true, true, true⟩
  else if env.keepIntermediate then
    ⟨true, true, true, true⟩
  else
    ⟨true, true, false, true⟩

/-- Counterexample to C2: when the input exists but PDF generation fails,
with keepIntermediate false, convert returns success := false while the
working directory it created still exists — the claimed unconditional
release on every exit path does not hold. -/
theorem convert_workdir_leak_counterexample :
    (convert ⟨true, false, false, false⟩).success = false ∧
    (convert ⟨true, false, false, false⟩).workDirCreated = true ∧
    (convert ⟨true, false, false, false⟩).workDirExists = true ∧
    (⟨true, false, false, false⟩ : ConvertEnv).keepIntermediate = false := by
  decide

/-- Claim C2 amended: the scoped working directory is released only on the
successful exit path (and kept there when keepIntermediate is set); on a
fatal failure after its creation — in particular a PDF generation failure
— convert returns success := false with the working directory still in
place.  Equivalently, after convert the directory exists exactly when it
was created and the run either failed or asked to keep intermediates. -/
theorem convert_workdir_lifecycle (env : ConvertEnv) :
    (convert env).workDirExists =
      ((convert env).workDirCreated &&
        (!(convert env).success || env.keepIntermediate)) ∧
    (convert env).mermaidTempCleaned = true := by
  rcases env with ⟨i, r, p, k⟩
  cases i <;> cases r <;> cases p <;> cases k <;> simp [convert]

/-! ### Batch conversion (claim C3)

converter module lines 210-277.  Each file's conversion outcome is
abstracted by a Bool (the success flag of its ConversionResult); the glob
expansion and deduplication are outside this claim.  A chunk passed to
Promise.all runs all of its members to completion, so the members of every
chunk entered are conversions that were started and completed. -/

/-- converter module, Converter.chunkArray: fixed-size slices
array.slice(i, i + size) for i = 0, size, 2*size, ...  (For size = 0 the
source loop does not terminate; the orchestrator always calls it with the
positive concurrency option, default 3.) -/
def chunkArrayAux : Nat → List Bool → Nat → List (List Bool)
  | 0, _, _ => []
  | _, [], _ => []
  | fuel + 1, a :: as, size =>
    ((a :: as).take size) :: chunkArrayAux fuel (as.drop (size - 1)) size

/-- Entry point: the fuel (one unit per chunk, each chunk consumes at
least one element) is the list length. -/
def chunkArray (l : List Bool) (size : Nat) : List (List Bool) :=
  chunkArrayAux l.length l size

/-- The inner  for (const result of chunkResults)  loop of batchConvert:
push each result and count it, and with continueOnError false break out
right after counting the first failure, dropping the remaining results of
the chunk. -/
def innerLoop (continueOnError : Bool) : List Bool → List Bool × Nat × Nat
  | [] => ([], 0, 0)
  | r :: rs =>
    if r then
      let p := innerLoop continueOnError rs
      (r :: p.1, p.2.1 + 1, p.2.2)
    else if !continueOnError then ([r], 0, 1)
    else
      let p := innerLoop continueOnError rs
      (r :: p.1, p.2.1, p.2.2 + 1)

/-- The outer chunk loop of batchConvert: process one chunk, and with
continueOnError false stop before the next chunk when any failure has been
counted.  The fourth component records every conversion that was started
(all members of every chunk entered — Promise.all completes them all). -/
def batchGo (continueOnError : Bool) :
    List (List Bool) → List Bool × Nat × Nat × List Bool
  | [] => ([], 0, 0, [])
  | ch :: chs =>
    let p := innerLoop continueOnError ch
    if !continueOnError && decide (p.2.2 > 0) then (p.1, p.2.1, p.2.2, ch)
    else
      let q := batchGo continueOnError chs
      (p.1 ++ q.1, p.2.1 + q.2.1, p.2.2 + q.2.2.1, ch ++ q.2.2.2)

/-- Aggregate result of batchConvert (BatchConversionResult), extended
with the ghost field launched listing the conversions actually started. -/
structure BatchOutcome where
  total : Nat
  successful : Nat
  failed : Nat
  results : List Bool
  launched : List Bool
deriving Repr, DecidableEq

/-- converter module, Converter.batchConvert on an already deduplicated
file list, each file abstracted by its conversion outcome. -/
def batchConvert (continueOnError : Bool) (concurrency : Nat)
    (files : List Bool) : BatchOutcome :=
  let chunks := chunkArray files concurrency
  let p := batchGo continueOnError chunks
  ⟨files.length, p.2.1, p.2.2.1, p.1, p.2.2.2⟩

/-- Counterexample to C3: two files in one group of two, the first fails
and the second succeeds.  Both conversions were started and completed
(launched = [false, true]), yet the returned results list holds only the
failing one and the success is not tallied: the inner break drops the
results of group members processed after the failing member. -/
theorem batchConvert_drops_results_counterexample :
    (batchConvert false 2 [false, true]).launched = [false, true] ∧
    (batchConvert false 2 [false, true]).results = [false] ∧
    (batchConvert false 2 [false, true]).successful = 0 ∧
    (batchConvert false 2 [false, true]).failed = 1 ∧
    (batchConvert false 2 [false, true]).total = 2 := by
  decide

/-- The results the orchestrator reports with continueOnError false: the
started conversions up to and including the first failure. -/
def takeThroughFirstFalse : List Bool → List Bool
  | [] => []
  | r :: rs => if r then r :: takeThroughFirstFalse rs else [r]

/-- The conversions started with continueOnError false: whole groups up to
and including the first group containing a failure. -/
def launchedChunks : List (List Bool) → List Bool
  | [] => []
  | ch :: chs => ch ++ (if ch.all (fun b => b) then launchedChunks chs else [])

theorem takeThroughFirstFalse_all_true (ch : List Bool)
    (h : ch.all (fun b => b) = true) :
    takeThroughFirstFalse ch = ch := by
  induction ch with
  | nil => rfl
  | cons r rs ih =>
    simp only [List.all_cons, Bool.and_eq_true] at h
    simp [takeThroughFirstFalse, h.1, ih h.2]

theorem takeThroughFirstFalse_append_all_true (ch rest : List Bool)
    (h : ch.all (fun b => b) = true) :
    takeThroughFirstFalse (ch ++ rest) = ch ++ takeThroughFirstFalse rest := by
  induction ch with
  | nil => rfl
  | cons r rs ih =>
    simp only [List.all_cons, Bool.and_eq_true] at h
    simp [takeThroughFirstFalse, h.1, ih h.2]

theorem innerLoop_false_spec (ch : List Bool) :
    innerLoop false ch =
      (takeThroughFirstFalse ch,
       (takeThroughFirstFalse ch).count true,
       (takeThroughFirstFalse ch).count false) := by
  induction ch with
  | nil => rfl
  | cons r rs ih =>
    cases r with
    | true => simp [innerLoop, takeThroughFirstFalse, ih, List.count_cons]
    | false => simp [innerLoop, takeThroughFirstFalse, List.count_cons]

theorem count_false_ttf (ch : List Bool) :
    (takeThroughFirstFalse ch).count false =
      if ch.all (fun b => b) then 0 else 1 := by
  induction ch with
  | nil => rfl
  | cons r rs ih =>
    cases r with
    | true => simp [takeThroughFirstFalse, List.count_cons, ih]
    | false => simp [takeThroughFirstFalse, List.count_cons]

theorem batchGo_false_spec (chunks : List (List Bool)) :
    batchGo false chunks =
      (takeThroughFirstFalse (launchedChunks chunks),
       (takeThroughFirstFalse (launchedChunks chunks)).count true,
       (takeThroughFirstFalse (launchedChunks chunks)).count false,
       launchedChunks chunks) := by
  induction chunks with
  | nil => rfl
  | cons ch chs ih =>
    cases hall : ch.all (fun b => b) with
    | true =>
      have hc0 : (takeThroughFirstFalse ch).count false = 0 := by
        rw [count_false_ttf, hall]
        rfl
      have hteq : takeThroughFirstFalse ch = ch :=
        takeThroughFirstFalse_all_true ch hall
      simp only [batchGo, innerLoop_false_spec, hc0, ih, launchedChunks,
        hall, if_true]
      have hc0c : List.count false ch = 0 := by
        rw [← hteq]
        exact hc0
      rw [takeThroughFirstFalse_append_all_true ch _ hall]
      simp [List.count_append, hc0, hteq, hc0c]
    | false =>
      have hcpos : (takeThroughFirstFalse ch).count false = 1 := by
        rw [count_false_ttf, hall]
        rfl
      simp only [batchGo, innerLoop_false_spec, launchedChunks, hall,
        Bool.false_eq_true, if_false, List.append_nil]
      rw [if_pos (by simp [hcpos])]

/-- Claim C3 amended: with continueOnError false, batchConvert stops
launching further groups once a group contains a failure (launched equals
the groups up to and including the first failing group), but the returned
results list and the success/failure tally cover only the started
conversions up to and including the first failing member: results of
members of the failing group processed after the first failure are
completed yet dropped from the results list and the tally. -/
theorem batchConvert_stops_after_failing_group (concurrency : Nat)
    (files : List Bool) :
    (batchConvert false concurrency files).launched =
      launchedChunks (chunkArray files concurrency) ∧
    (batchConvert false concurrency files).results =
      takeThroughFirstFalse ((batchConvert false concurrency files).launched) ∧
    (batchConvert false concurrency files).successful =
      ((batchConvert false concurrency files).results).count true ∧
    (batchConvert false concurrency files).failed =
      ((batchConvert false concurrency files).results).count false ∧
    (batchConvert false concurrency files).total = files.length := by
  simp [batchConvert, batchGo_false_spec]

/-! ### Watch-session lifecycle (claim C7)

converter module lines 282-333.  The watch session is modelled as a state
machine over event-loop steps.  fileChange f is the chokidar change/add
handler for file f (clear the previous timer for f, schedule a new one);
timerFire f is a pending debounce timer firing (delete it from the map and
start a conversion of f); closeBegin is the call of close() up to the
await of watcher.close() (the subscription is released, so no further
change events are delivered, while pending timers may still fire during
the await); closeEnd is the remainder of close(): clearTimeout on every
pending timer, timers.clear(), and the return of close().  tick is any
unrelated event-loop activity.  A step is invalid (none) when its guard
does not hold, e.g. a timer that is not pending cannot fire. -/

inductive WatchEvent
  | fileChange (f : Nat)
  | timerFire (f : Nat)
  | closeBegin
  | closeEnd
  | tick
deriving Repr, DecidableEq

/-- Live state of a watch session: the chokidar subscription, whether
close() was called, the pending debounce timers (the keys of the timers
map), and the conversions started so far. -/
structure WatchState where
  watcherOpen : Bool
  closeRequested : Bool
  pendingTimers : List Nat
  conversions : List Nat
deriving Repr, DecidableEq

/-- The state in which Converter.watch returns its handle. -/
def initWatchState : WatchState :=
  ⟨true, false, [], []⟩

/-- One event-loop step of the watch session. -/
def watchStep (s : WatchState) : WatchEvent → Option WatchState
  | .fileChange f =>
    if s.watcherOpen then
      some { s with pendingTimers := f :: s.pendingTimers.erase f }
    else none
  | .timerFire f =>
    if s.pendingTimers.contains f then
      some { s with pendingTimers := s.pendingTimers.erase f,
                    conversions := s.conversions ++ [f] }
    else none
  | .closeBegin =>
    if s.watcherOpen then
      some { s with watcherOpen := false, closeRequested := true }
    else none
  | .closeEnd =>
    if s.closeRequested then some { s with pendingTimers := [] } else none
  | .tick => some s

/-- Run a sequence of event-loop steps; none when some step was invalid. -/
def watchRun (s : WatchState) : List WatchEvent → Option WatchState
  | [] => some s
  | e :: es =>
    match watchStep s e with
    | some s2 => watchRun s2 es
    | none => none

theorem watchStep_closeRequested_imp (s s2 : WatchState) (e : WatchEvent)
    (hinv : s.closeRequested = true → s.watcherOpen = false)
    (h : watchStep s e = some s2) :
    s2.closeRequested = true → s2.watcherOpen = false := by
  cases e <;> simp only [watchStep] at h
  case fileChange f =>
    split at h
    · rw [Option.some.injEq] at h
      subst h
      simpa using hinv
    · exact absurd h (by simp)
  case timerFire f =>
    split at h
    · rw [Option.some.injEq] at h
      subst h
      simpa using hinv
    · exact absurd h (by simp)
  case closeBegin =>
    split at h
    · rw [Option.some.injEq] at h
      subst h
      simp
    · exact absurd h (by simp)
  case closeEnd =>
    split at h
    · rw [Option.some.injEq] at h
      subst h
      simpa using hinv
    · exact absurd h (by simp)
  case tick =>
    rw [Option.some.injEq] at h
    subst h
    exact hinv

theorem watchRun_closeRequested_imp (t : List WatchEvent) :
    ∀ (s s2 : WatchState),
      (s.closeRequested = true → s.watcherOpen = false) →
      watchRun s t = some s2 →
      (s2.closeRequested = true → s2.watcherOpen = false) := by
  induction t with
  | nil =>
    intro s s2 hinv h
    rw [watchRun, Option.some.injEq] at h
    subst h
    exact hinv
  | cons e es ih =>
    intro s s2 hinv h
    rw [watchRun] at h
    cases hstep : watchStep s e with
    | none => rw [hstep] at h; exact absurd h (by simp)
    | some s1 =>
      rw [hstep] at h
      exact ih s1 s2 (watchStep_closeRequested_imp s s1 e hinv hstep) h

theorem watchRun_append (t1 t2 : List WatchEvent) :
    ∀ (s s2 : WatchState),
      watchRun s (t1 ++ t2) = some s2 →
      ∃ s1, watchRun s t1 = some s1 ∧ watchRun s1 t2 = some s2 := by
  induction t1 with
  | nil =>
    intro s s2 h
    exact ⟨s, rfl, h⟩
  | cons e es ih =>
    intro s s2 h
    rw [List.cons_append, watchRun] at h
    cases hstep : watchStep s e with
    | none => rw [hstep] at h; exact absurd h (by simp)
    | some s1 =>
      rw [hstep] at h
      obtain ⟨sm, h1, h2⟩ := ih s1 s2 h
      refine ⟨sm, ?_, h2⟩
      rw [watchRun, hstep]
      exact h1

/-- After the session is fully closed (subscription gone, no pending
timers) no step can fire a timer or start a conversion: the closed state
is preserved and the conversion list never grows. -/
theorem watchRun_closed (t : List WatchEvent) :
    ∀ (s s2 : WatchState),
      s.watcherOpen = false →
      s.pendingTimers = [] →
      watchRun s t = some s2 →
      s2.conversions = s.conversions ∧ s2.watcherOpen = false ∧
        s2.pendingTimers = [] ∧ (∀ f, WatchEvent.timerFire f ∉ t) := by
  induction t with
  | nil =>
    intro s s2 _ _ h
    rw [watchRun, Option.some.injEq] at h
    subst h
    simp_all
  | cons e es ih =>
    intro s s2 hopen htimers h
    rw [watchRun] at h
    cases hstep : watchStep s e with
    | none => rw [hstep] at h; exact absurd h (by simp)
    | some s1 =>
      rw [hstep] at h
      cases e with
      | fileChange f =>
        rw [watchStep, hopen] at hstep
        exact absurd hstep (by simp)
      | timerFire f =>
        rw [watchStep, htimers] at hstep
        exact absurd hstep (by simp)
      | closeBegin =>
        rw [watchStep, hopen] at hstep
        exact absurd hstep (by simp)
      | closeEnd =>
        rw [watchStep] at hstep
        split at hstep
        · rw [Option.some.injEq] at hstep
          subst hstep
          obtain ⟨h1, h2, h3, h4⟩ := ih _ s2 (by simpa using hopen) (by simp) h
          refine ⟨by simpa using h1, h2, h3, ?_⟩
          intro f
          simp [h4 f]
        · exact absurd hstep (by simp)
      | tick =>
        rw [watchStep, Option.some.injEq] at hstep
        subst hstep
        obtain ⟨h1, h2, h3, h4⟩ := ih s s2 hopen htimers h
        refine ⟨h1, h2, h3, ?_⟩
        intro f
        simp [h4 f]

/-- Claim C7: after close() on a watch handle returns (the trace reaches
the closeEnd step, which clears every pending timer after the watcher
subscription was released), no debounce timer fires and no conversion
starts in any further event-loop activity — including for change events
that arrived before close() was called and whose debounce timers were
still pending at that moment (those timers may fire only during the await
inside close(), never after it returns). -/
theorem watch_close_stops_conversions
    (t1 t2 : List WatchEvent) (s1 s2 : WatchState)
    (h1 : watchRun initWatchState (t1 ++ [WatchEvent.closeEnd]) = some s1)
    (h2 : watchRun s1 t2 = some s2) :
    s2.conversions = s1.conversions ∧
    (∀ f, WatchEvent.timerFire f ∉ t2) := by
  obtain ⟨s0, hrun0, hstep1⟩ := watchRun_append t1 [WatchEvent.closeEnd]
    initWatchState s1 h1
  have hinv0 : s0.closeRequested = true → s0.watcherOpen = false :=
    watchRun_closeRequested_imp t1 initWatchState s0 (by simp [initWatchState])
      hrun0
  rw [watchRun] at hstep1
  cases hstep : watchStep s0 WatchEvent.closeEnd with
  | none => rw [hstep] at hstep1; exact absurd hstep1 (by simp)
  | some sEnd =>
    rw [hstep] at hstep1
    simp only [watchRun, Option.some.injEq] at hstep1
    subst hstep1
    rw [watchStep] at hstep
    split at hstep
    case isTrue hreq =>
      rw [Option.some.injEq] at hstep
      subst hstep
      have hopen : s0.watcherOpen = false := hinv0 hreq
      obtain ⟨hc, _, _, hnofire⟩ := watchRun_closed t2 _ s2
        (by simpa using hopen) (by simp) h2
      exact ⟨hc, hnofire⟩
    case isFalse => exact absurd hstep (by simp)

/-- Witness for C7: a change event arrives, close() begins, its pending
timer is cleared when close() returns, and a later event-loop tick starts
no conversion. -/
theorem watch_close_stops_conversions_witness :
    (watchRun initWatchState
        ([WatchEvent.fileChange 0, WatchEvent.closeBegin] ++
          [WatchEvent.closeEnd]) = some ⟨false, true, [], []⟩) ∧
    (watchRun ⟨false, true, [], []⟩ [WatchEvent.tick] =
      some ⟨false, true, [], []⟩) ∧
    (⟨false, true, [], []⟩ : WatchState).conversions =
      (⟨false, true, [], []⟩ : WatchState).conversions ∧
    (∀ f, WatchEvent.timerFire f ∉ [WatchEvent.tick]) := by
  refine ⟨by decide, by decide, ?_, ?_⟩
  have h := watch_close_stops_conversions
    [WatchEvent.fileChange 0, WatchEvent.closeBegin] [WatchEvent.tick]
    ⟨false, true, [], []⟩ ⟨false, true, [], []⟩ (by decide) (by decide)
  · exact h.1
  · exact (watch_close_stops_conversions
      [WatchEvent.fileChange 0, WatchEvent.closeBegin] [WatchEvent.tick]
      ⟨false, true, [], []⟩ ⟨false, true, [], []⟩ (by decide) (by decide)).2

/-! ### Configuration merging (claim C9)

config module (mergeConfig), pdf-generator.ts lines 185-194
(PdfGenerator constructor), mermaid-processor.ts lines 46-58
(MermaidProcessor constructor).  Optional TypeScript object fields are
modelled as Option values; an absent key is none.  A JS object spread
{ ...a, ...b } is the field-by-field right-biased merge. -/

/-- types.ts, PdfFormat. -/
inductive PdfFormat
  | A0 | A1 | A2 | A3 | A4 | A5 | A6 | Letter | Legal | Tabloid | Ledger
deriving Repr, DecidableEq

/-- types.ts, PageMargins. -/
@[ext] structure PageMargins where
  top : Option (List Char)
  right : Option (List Char)
  bottom : Option (List Char)
  left : Option (List Char)
deriving Repr, DecidableEq

/-- types.ts, the Mermaid theme union type. -/
inductive MermaidTheme
  | default | forest | dark | neutral | base
deriving Repr, DecidableEq

/-- types.ts, the outputFormat union type. -/
inductive DiagramFormat
  | png | svg
deriving Repr, DecidableEq

/-- types.ts, the headless field of PuppeteerConfig (a boolean or the
string "new"). -/
inductive HeadlessMode
  | flag (b : Bool) | new
deriving Repr, DecidableEq

/-- types.ts, PuppeteerConfig. -/
@[ext] structure PuppeteerConfig where
  headless : Option HeadlessMode
  args : Option (List (List Char))
  executablePath : Option (List Char)
deriving Repr, DecidableEq

/-- types.ts, PdfOptions (all fields optional). -/
@[ext] structure PdfOptions where
  format : Option PdfFormat
  margin : Option PageMargins
  printBackground : Option Bool
  landscape : Option Bool
  headerTemplate : Option (List Char)
  footerTemplate : Option (List Char)
  displayHeaderFooter : Option Bool
  scale : Option Rat
  width : Option (List Char)
  height : Option (List Char)
  pageRanges : Option (List Char)
  preferCSSPageSize : Option Bool
deriving Repr, DecidableEq

/-- types.ts, MermaidOptions (all fields optional). -/
@[ext] structure MermaidOptions where
  theme : Option MermaidTheme
  backgroundColor : Option (List Char)
  width : Option Int
  height : Option Int
  outputFormat : Option DiagramFormat
  puppeteerConfig : Option PuppeteerConfig
deriving Repr, DecidableEq

/-- types.ts, StyleOptions (all fields optional). -/
@[ext] structure StyleOptions where
  cssFile : Option (List Char)
  css : Option (List Char)
  highlightTheme : Option (List Char)
  bodyClass : Option (List Char)
deriving Repr, DecidableEq

/-- types.ts, ConfigFile. -/
structure ConfigFile where
  pdf : Option PdfOptions
  mermaid : Option MermaidOptions
  style : Option StyleOptions
  outputDir : Option (List Char)
  ignore : Option (List (List Char))
deriving Repr, DecidableEq

/-- types.ts, Partial of ConversionOptions (the caller-supplied CLI
options). -/
structure ConversionOptions where
  input : Option (List Char)
  output : Option (List Char)
  pdf : Option PdfOptions
  mermaid : Option MermaidOptions
  style : Option StyleOptions
  keepIntermediate : Option Bool
  workingDir : Option (List Char)
  verbose : Option Bool
deriving Repr, DecidableEq

/-- The empty object literal for PdfOptions. -/
def emptyPdfOptions : PdfOptions :=
  ⟨none, none, none, none, none, none, none, none, none, none, none, none⟩

/-- The empty object literal for MermaidOptions. -/
def emptyMermaidOptions : MermaidOptions :=
  ⟨none, none, none, none, none, none⟩

/-- The empty object literal for StyleOptions. -/
def emptyStyleOptions : StyleOptions :=
  ⟨none, none, none, none⟩

/-- The spread { ...a, ...b } on PdfOptions: per field, b wins when its
field is present. -/
def spreadPdfOptions (a b : PdfOptions) : PdfOptions where
  format := b.format <|> a.format
  margin := b.margin <|> a.margin
  printBackground := b.printBackground <|> a.printBackground
  landscape := b.landscape <|> a.landscape
  headerTemplate := b.headerTemplate <|> a.headerTemplate
  footerTemplate := b.footerTemplate <|> a.footerTemplate
  displayHeaderFooter := b.displayHeaderFooter <|> a.displayHeaderFooter
  scale := b.scale <|> a.scale
  width := b.width <|> a.width
  height := b.height <|> a.height
  pageRanges := b.pageRanges <|> a.pageRanges
  preferCSSPageSize := b.preferCSSPageSize <|> a.preferCSSPageSize

/-- The spread { ...a, ...b } on MermaidOptions. -/
def spreadMermaidOptions (a b : MermaidOptions) : MermaidOptions where
  theme := b.theme <|> a.theme
  backgroundColor := b.backgroundColor <|> a.backgroundColor
  width := b.width <|> a.width
  height := b.height <|> a.height
  outputFormat := b.outputFormat <|> a.outputFormat
  puppeteerConfig := b.puppeteerConfig <|> a.puppeteerConfig

/-- The spread { ...a, ...b } on StyleOptions. -/
def spreadStyleOptions (a b : StyleOptions) : StyleOptions where
  cssFile := b.cssFile <|> a.cssFile
  css := b.css <|> a.css
  highlightTheme := b.highlightTheme <|> a.highlightTheme
  bodyClass := b.bodyClass <|> a.bodyClass

/-- pdf-generator.ts, DEFAULT_PDF_OPTIONS. -/
def DEFAULT_PDF_OPTIONS : PdfOptions :=
  { format := some PdfFormat.A4
    margin := some ⟨some "20mm".data, some "15mm".data, some "20mm".data,
      some "15mm".data⟩
    printBackground := some true
    landscape := some false
    headerTemplate := none
    footerTemplate := none
    displayHeaderFooter := some false
    scale := some 1
    width := none
    height := none
    pageRanges := none
    preferCSSPageSize := none }

/-- config module, mergeConfig: start from the file-config sub-objects
when the file config exists, spread the CLI sub-objects over them
key-by-key, and copy the remaining caller-supplied top-level options. -/
def mergeConfig (fileConfig : Option ConfigFile)
    (cliOptions : ConversionOptions) : ConversionOptions :=
  let basePdf : Option PdfOptions :=
    match fileConfig with
    | some fc => fc.pdf
    | none => none
  let baseMermaid : Option MermaidOptions :=
    match fileConfig with
    | some fc => fc.mermaid
    | none => none
  let baseStyle : Option StyleOptions :=
    match fileConfig with
    | some fc => fc.style
    | none => none
  { input := cliOptions.input
    output := cliOptions.output
    pdf :=
      match cliOptions.pdf with
      | some cp => some (spreadPdfOptions (basePdf.getD emptyPdfOptions) cp)
      | none => basePdf
    mermaid :=
      match cliOptions.mermaid with
      | some cm =>
        some (spreadMermaidOptions (baseMermaid.getD emptyMermaidOptions) cm)
      | none => baseMermaid
    style :=
      match cliOptions.style with
      | some cs =>
        some (spreadStyleOptions (baseStyle.getD emptyStyleOptions) cs)
      | none => baseStyle
    keepIntermediate := cliOptions.keepIntermediate
    workingDir := cliOptions.workingDir
    verbose := cliOptions.verbose }

/-- pdf-generator.ts, PdfGenerator constructor: this.pdfOptions is the
spread of DEFAULT_PDF_OPTIONS and the given options. -/
def pdfGeneratorPdfOptions (o : Option PdfOptions) : PdfOptions :=
  match o with
  | none => DEFAULT_PDF_OPTIONS
  | some p => spreadPdfOptions DEFAULT_PDF_OPTIONS p

/-- pdf-generator.ts, PdfGenerator constructor: this.styleOptions is the
given options or the empty object. -/
def pdfGeneratorStyleOptions (o : Option StyleOptions) : StyleOptions :=
  o.getD emptyStyleOptions

/-- Required MermaidOptions, as held by a constructed MermaidProcessor. -/
structure ResolvedMermaidOptions where
  theme : MermaidTheme
  backgroundColor : List Char
  width : Int
  height : Int
  outputFormat : DiagramFormat
  puppeteerConfig : PuppeteerConfig
deriving Repr, DecidableEq

/-- The default puppeteerConfig of the MermaidProcessor constructor. -/
def defaultPuppeteerConfig : PuppeteerConfig :=
  ⟨some HeadlessMode.new,
   some ["--no-sandbox".data, "--disable-setuid-sandbox".data], none⟩

/-- mermaid-processor.ts, MermaidProcessor constructor: per-field
fallbacks with the nullish-coalescing operator. -/
def mermaidProcessorOptions (o : Option MermaidOptions) :
    ResolvedMermaidOptions :=
  let m := o.getD emptyMermaidOptions
  { theme := m.theme.getD MermaidTheme.default
    backgroundColor := m.backgroundColor.getD "transparent".data
    width := m.width.getD 800
    height := m.height.getD 600
    outputFormat := m.outputFormat.getD DiagramFormat.png
    puppeteerConfig := m.puppeteerConfig.getD defaultPuppeteerConfig }

/-- Specification-side layered PDF configuration, written from the words
of the spec: each key takes the caller-supplied value when present,
otherwise the file-config value, otherwise the built-in default. -/
def layeredPdfSpec (f : Option ConfigFile) (c : ConversionOptions) :
    PdfOptions where
  format := (c.pdf.bind fun p => p.format) <|>
    ((f.bind fun fc => fc.pdf).bind fun p => p.format) <|>
    DEFAULT_PDF_OPTIONS.format
  margin := (c.pdf.bind fun p => p.margin) <|>
    ((f.bind fun fc => fc.pdf).bind fun p => p.margin) <|>
    DEFAULT_PDF_OPTIONS.margin
  printBackground := (c.pdf.bind fun p => p.printBackground) <|>
    ((f.bind fun fc => fc.pdf).bind fun p => p.printBackground) <|>
    DEFAULT_PDF_OPTIONS.printBackground
  landscape := (c.pdf.bind fun p => p.landscape) <|>
    ((f.bind fun fc => fc.pdf).bind fun p => p.landscape) <|>
    DEFAULT_PDF_OPTIONS.landscape
  headerTemplate := (c.pdf.bind fun p => p.headerTemplate) <|>
    ((f.bind fun fc => fc.pdf).bind fun p => p.headerTemplate) <|>
    DEFAULT_PDF_OPTIONS.headerTemplate
  footerTemplate := (c.pdf.bind fun p => p.footerTemplate) <|>
    ((f.bind fun fc => fc.pdf).bind fun p => p.footerTemplate) <|>
    DEFAULT_PDF_OPTIONS.footerTemplate
  displayHeaderFooter := (c.pdf.bind fun p => p.displayHeaderFooter) <|>
    ((f.bind fun fc => fc.pdf).bind fun p => p.displayHeaderFooter) <|>
    DEFAULT_PDF_OPTIONS.displayHeaderFooter
  scale := (c.pdf.bind fun p => p.scale) <|>
    ((f.bind fun fc => fc.pdf).bind fun p => p.scale) <|>
    DEFAULT_PDF_OPTIONS.scale
  width := (c.pdf.bind fun p => p.width) <|>
    ((f.bind fun fc => fc.pdf).bind fun p => p.width) <|>
    DEFAULT_PDF_OPTIONS.width
  height := (c.pdf.bind fun p => p.height) <|>
    ((f.bind fun fc => fc.pdf).bind fun p => p.height) <|>
    DEFAULT_PDF_OPTIONS.height
  pageRanges := (c.pdf.bind fun p => p.pageRanges) <|>
    ((f.bind fun fc => fc.pdf).bind fun p => p.pageRanges) <|>
    DEFAULT_PDF_OPTIONS.pageRanges
  preferCSSPageSize := (c.pdf.bind fun p => p.preferCSSPageSize) <|>
    ((f.bind fun fc => fc.pdf).bind fun p => p.preferCSSPageSize) <|>
    DEFAULT_PDF_OPTIONS.preferCSSPageSize

/-- Specification-side layered Mermaid configuration: caller over file
over built-in default, per key. -/
def layeredMermaidSpec (f : Option ConfigFile) (c : ConversionOptions) :
    ResolvedMermaidOptions where
  theme := ((c.mermaid.bind fun m => m.theme) <|>
    ((f.bind fun fc => fc.mermaid).bind fun m => m.theme)).getD
    MermaidTheme.default
  backgroundColor := ((c.mermaid.bind fun m => m.backgroundColor) <|>
    ((f.bind fun fc => fc.mermaid).bind fun m => m.backgroundColor)).getD
    "transparent".data
  width := ((c.mermaid.bind fun m => m.width) <|>
    ((f.bind fun fc => fc.mermaid).bind fun m => m.width)).getD 800
  height := ((c.mermaid.bind fun m => m.height) <|>
    ((f.bind fun fc => fc.mermaid).bind fun m => m.height)).getD 600
  outputFormat := ((c.mermaid.bind fun m => m.outputFormat) <|>
    ((f.bind fun fc => fc.mermaid).bind fun m => m.outputFormat)).getD
    DiagramFormat.png
  puppeteerConfig := ((c.mermaid.bind fun m => m.puppeteerConfig) <|>
    ((f.bind fun fc => fc.mermaid).bind fun m => m.puppeteerConfig)).getD
    defaultPuppeteerConfig

/-- Specification-side layered style configuration: caller over file; the
style keys have no built-in constructor defaults. -/
def layeredStyleSpec (f : Option ConfigFile) (c : ConversionOptions) :
    StyleOptions where
  cssFile := (c.style.bind fun s => s.cssFile) <|>
    ((f.bind fun fc => fc.style).bind fun s => s.cssFile)
  css := (c.style.bind fun s => s.css) <|>
    ((f.bind fun fc => fc.style).bind fun s => s.css)
  highlightTheme := (c.style.bind fun s => s.highlightTheme) <|>
    ((f.bind fun fc => fc.style).bind fun s => s.highlightTheme)
  bodyClass := (c.style.bind fun s => s.bodyClass) <|>
    ((f.bind fun fc => fc.style).bind fun s => s.bodyClass)

theorem option_orElse_none (x : Option α) : (x <|> none) = x := by
  cases x <;> rfl

theorem option_none_orElse (y : Option α) : ((none : Option α) <|> y) = y :=
  rfl

theorem option_orElse_assoc (x y z : Option α) :
    ((x <|> y) <|> z) = (x <|> (y <|> z)) := by
  cases x <;> rfl

theorem pdfOptions_layered (f : Option ConfigFile) (c : ConversionOptions) :
    pdfGeneratorPdfOptions (mergeConfig f c).pdf = layeredPdfSpec f c := by
  rcases f with _ | fc
  · rcases hcp : c.pdf with _ | cp <;>
      simp [mergeConfig, pdfGeneratorPdfOptions, layeredPdfSpec, hcp,
        spreadPdfOptions, emptyPdfOptions, option_orElse_none,
        option_none_orElse, option_orElse_assoc, PdfOptions.ext_iff]
  · rcases hfp : fc.pdf with _ | fp <;> rcases hcp : c.pdf with _ | cp <;>
      simp [mergeConfig, pdfGeneratorPdfOptions, layeredPdfSpec, hcp, hfp,
        spreadPdfOptions, emptyPdfOptions, option_orElse_none,
        option_none_orElse, option_orElse_assoc, PdfOptions.ext_iff]

theorem mermaidOptions_layered (f : Option ConfigFile)
    (c : ConversionOptions) :
    mermaidProcessorOptions (mergeConfig f c).mermaid =
      layeredMermaidSpec f c := by
  rcases f with _ | fc
  · rcases hcm : c.mermaid with _ | cm <;>
      simp [mergeConfig, mermaidProcessorOptions, layeredMermaidSpec, hcm,
        spreadMermaidOptions, emptyMermaidOptions, option_orElse_none,
        option_none_orElse, option_orElse_assoc,
        ResolvedMermaidOptions.mk.injEq]
  · rcases hfm : fc.mermaid with _ | fm <;> rcases hcm : c.mermaid with _ | cm <;>
      simp [mergeConfig, mermaidProcessorOptions, layeredMermaidSpec, hcm,
        hfm, spreadMermaidOptions, emptyMermaidOptions, option_orElse_none,
        option_none_orElse, option_orElse_assoc,
        ResolvedMermaidOptions.mk.injEq]

theorem styleOptions_layered (f : Option ConfigFile)
    (c : ConversionOptions) :
    pdfGeneratorStyleOptions (mergeConfig f c).style =
      layeredStyleSpec f c := by
  rcases f with _ | fc
  · rcases hcs : c.style with _ | cs <;>
      simp [mergeConfig, pdfGeneratorStyleOptions, layeredStyleSpec, hcs,
        spreadStyleOptions, emptyStyleOptions, option_orElse_none,
        option_none_orElse, option_orElse_assoc, StyleOptions.ext_iff]
  · rcases hfs : fc.style with _ | fs <;> rcases hcs : c.style with _ | cs <;>
      simp [mergeConfig, pdfGeneratorStyleOptions, layeredStyleSpec, hcs,
        hfs, spreadStyleOptions, emptyStyleOptions, option_orElse_none,
        option_none_orElse, option_orElse_assoc, StyleOptions.ext_iff]

/-- Claim C9: across mergeConfig and the constructors that apply the
built-in defaults, every key of the effective configuration takes the
caller-supplied value when present, otherwise the file-config value,
otherwise the built-in default, with the pdf, mermaid and style
sub-objects merged key-by-key rather than replaced wholesale; the
remaining top-level options are taken from the caller. -/
theorem mergeConfig_layered_precedence (f : Option ConfigFile)
    (c : ConversionOptions) :
    pdfGeneratorPdfOptions (mergeConfig f c).pdf = layeredPdfSpec f c ∧
    mermaidProcessorOptions (mergeConfig f c).mermaid =
      layeredMermaidSpec f c ∧
    pdfGeneratorStyleOptions (mergeConfig f c).style =
      layeredStyleSpec f c ∧
    (mergeConfig f c).input = c.input ∧
    (mergeConfig f c).output = c.output ∧
    (mergeConfig f c).verbose = c.verbose ∧
    (mergeConfig f c).keepIntermediate = c.keepIntermediate ∧
    (mergeConfig f c).workingDir = c.workingDir :=
  ⟨pdfOptions_layered f c, mermaidOptions_layered f c,
   styleOptions_layered f c, rfl, rfl, rfl, rfl, rfl⟩

end MdToPdf
